import Mathlib

/-!
# Verification of the `fake_clock` virtual clock (`src/lib.rs`)

Shallow embedding of the `FakeInstant` virtual clock. The thread-local
counter `FAKE_TIME : Cell<u64>` is modelled as a function from thread ids
to natural numbers (each thread's counter, default zero), and every
operation that touches the counter takes a thread id and the global state
explicitly. Machine integers (`u64`, `u128`) are modelled as `Nat` with
wrapping taken modulo `2^64` where the source performs unchecked
arithmetic (Rust release semantics; debug builds panic at the same
inputs).
-/

namespace FakeClock

/-- Number of values of a `u64`; unchecked `u64` arithmetic wraps modulo this. -/
def U64SIZE : Nat := 2 ^ 64

/-- Number of values of a `u128`. -/
def U128SIZE : Nat := 2 ^ 128

/-- `u64::checked_sub`: `some (a - b)` when `b ≤ a`, otherwise `none`. -/
def u64CheckedSub (a b : Nat) : Option Nat :=
  if b ≤ a then some (a - b) else none

/-- `u128::checked_add`: `some (a + b)` when the sum fits a `u128`, otherwise `none`. -/
def u128CheckedAdd (a b : Nat) : Option Nat :=
  if a + b < U128SIZE then some (a + b) else none

/-- `u128 → u64` conversion `try_into().ok()`: succeeds exactly when the value fits. -/
def u128ToU64 (a : Nat) : Option Nat :=
  if a < U64SIZE then some a else none

/-- Wrapping `u64` subtraction `a - b` (release semantics of the unchecked `-`).
For `a, b < 2^64` this is `(a - b) mod 2^64` in integers. -/
def u64SubWrap (a b : Nat) : Nat :=
  (U64SIZE + a - b) % U64SIZE

/-- `std::time::Duration`: seconds (`u64`) and nanoseconds (`u32`, `< 10^9`). -/
structure Duration where
  secs : Nat
  nanos : Nat
deriving Repr, DecidableEq

/-- The representation invariant of a real `Duration` value. -/
def Duration.valid (d : Duration) : Prop :=
  d.secs < U64SIZE ∧ d.nanos < 1000000000

/-- `Duration::as_millis`: total milliseconds, truncating sub-millisecond nanos. -/
def Duration.as_millis (d : Duration) : Nat :=
  d.secs * 1000 + d.nanos / 1000000

/-- `Duration::from_millis`. -/
def Duration.from_millis (m : Nat) : Duration :=
  ⟨m / 1000, m % 1000 * 1000000⟩

/-- `Duration::default()`, the zero duration. -/
def Duration.defaultVal : Duration := ⟨0, 0⟩

/-- Thread identifiers; the `thread_local!` storage is indexed by these. -/
abbrev ThreadId := Nat

/-- The global state: each thread's `FAKE_TIME` cell. `Default::default()` for
`u64` is `0`, so a never-touched thread's counter reads as zero. -/
abbrev GState := ThreadId → Nat

/-- The state before any thread has mutated its counter. -/
def initState : GState := fun _ => 0

/-- `FakeInstant`: wraps the captured counter value `time_created : u64`. -/
structure FakeInstant where
  time_created : Nat
deriving Repr, DecidableEq

/-- `FakeInstant::set_time`: overwrite the calling thread's counter
(`c.replace(time)`), returning the old value. -/
def set_time (time : Nat) (t : ThreadId) (s : GState) : Nat × GState :=
  (s t, fun u => if u = t then time else s u)

/-- `FakeInstant::advance_time`: `let new_time = c.get() + millis` (unchecked
`u64` addition, wraps modulo `2^64`); stores and returns `new_time`. -/
def advance_time (millis : Nat) (t : ThreadId) (s : GState) : Nat × GState :=
  let new_time := (s t + millis) % U64SIZE
  (new_time, fun u => if u = t then new_time else s u)

/-- `FakeInstant::time`: `c.get()`, reading the calling thread's counter;
returned together with the (unchanged) state it leaves behind. -/
def timeRS (t : ThreadId) (s : GState) : Nat × GState :=
  (s t, s)

/-- `FakeInstant::time` as a plain read. -/
def time (t : ThreadId) (s : GState) : Nat :=
  (timeRS t s).1

/-- `FakeInstant::now`: capture `Self::time()` into an instant. -/
def nowRS (t : ThreadId) (s : GState) : FakeInstant × GState :=
  let (v, s1) := timeRS t s
  (⟨v⟩, s1)

/-- `FakeInstant::now` as a plain read. -/
def FakeInstant.now (t : ThreadId) (s : GState) : FakeInstant :=
  (nowRS t s).1

/-- `FakeInstant::checked_duration_since`:
`self.time_created.checked_sub(earlier.time_created).map(Duration::from_millis)`. -/
def FakeInstant.checked_duration_since (i earlier : FakeInstant) : Option Duration :=
  (u64CheckedSub i.time_created earlier.time_created).map Duration.from_millis

/-- `FakeInstant::duration_since`:
`self.checked_duration_since(earlier).unwrap_or_default()`. -/
def FakeInstant.duration_since (i earlier : FakeInstant) : Duration :=
  (i.checked_duration_since earlier).getD Duration.defaultVal

/-- `FakeInstant::saturating_duration_since`: same body as `duration_since`. -/
def FakeInstant.saturating_duration_since (i earlier : FakeInstant) : Duration :=
  (i.checked_duration_since earlier).getD Duration.defaultVal

/-- `FakeInstant::elapsed`:
`Duration::from_millis(Self::time() - self.time_created)` — an unchecked `u64`
subtraction of the creating count from the *reading* thread's counter; it wraps
when the counter is behind the instant (and panics in debug builds). Returned
with the state it leaves behind. -/
def elapsedRS (i : FakeInstant) (t : ThreadId) (s : GState) : Duration × GState :=
  let (v, s1) := timeRS t s
  (Duration.from_millis (u64SubWrap v i.time_created), s1)

/-- `FakeInstant::elapsed` as a plain read. -/
def FakeInstant.elapsed (i : FakeInstant) (t : ThreadId) (s : GState) : Duration :=
  (elapsedRS i t s).1

/-- `FakeInstant::checked_add`:
`duration.as_millis().checked_add(self.time_created as u128)
   .and_then(|time| time.try_into().ok()).map(|time| Self { time_created: time })`. -/
def FakeInstant.checked_add (i : FakeInstant) (d : Duration) : Option FakeInstant :=
  ((u128CheckedAdd d.as_millis i.time_created).bind u128ToU64).map
    fun tc => ⟨tc⟩

/-- `FakeInstant::checked_sub`:
`duration.as_millis().try_into().ok()
   .and_then(|dur| self.time_created.checked_sub(dur))
   .map(|time| Self { time_created: time })`. -/
def FakeInstant.checked_sub (i : FakeInstant) (d : Duration) : Option FakeInstant :=
  ((u128ToU64 d.as_millis).bind fun dur => u64CheckedSub i.time_created dur).map
    fun tc => ⟨tc⟩

/-- `impl Add<Duration> for FakeInstant`:
`self.checked_add(other).expect("overflow when adding duration to instant")`;
the `expect` panic is modelled as an `error` result. -/
def FakeInstant.addDuration (i : FakeInstant) (d : Duration) : Except String FakeInstant :=
  match i.checked_add d with
  | some t => .ok t
  | none => .error "overflow when adding duration to instant"

/-- `impl Sub<Duration> for FakeInstant`:
`self.checked_sub(other).expect("overflow when subtracting duration from instant")`. -/
def FakeInstant.subDuration (i : FakeInstant) (d : Duration) : Except String FakeInstant :=
  match i.checked_sub d with
  | some t => .ok t
  | none => .error "overflow when subtracting duration from instant"

/-- `impl Sub<Self> for FakeInstant`: `self.duration_since(other)`. -/
def FakeInstant.subInstant (i other : FakeInstant) : Duration :=
  i.duration_since other

/-- `#[derive(PartialEq)]`: field-wise equality on `time_created`. -/
def FakeInstant.beq (a b : FakeInstant) : Bool :=
  a.time_created == b.time_created

/-- `#[derive(PartialOrd, Ord)]`: lexicographic order on the single field
`time_created`, i.e. the numeric order of the captured counts (`≤` form). -/
def FakeInstant.ble (a b : FakeInstant) : Bool :=
  a.time_created ≤ b.time_created

/-- `#[derive(Hash)]` feeds exactly `self.time_created` to the hasher, so the
hash of an instant is an arbitrary function of its stored count alone. -/
def FakeInstant.hashWith (h : Nat → Nat) (i : FakeInstant) : Nat :=
  h i.time_created

/-- The operations of the library, for stating which ones touch the
thread-local counter. -/
inductive Op where
  | setTime (v : Nat)
  | advanceTime (d : Nat)
  | timeOp
  | nowOp
  | elapsedOp (i : FakeInstant)
  | durationSinceOp (a b : FakeInstant)
  | satDurationSinceOp (a b : FakeInstant)
  | checkedDurationSinceOp (a b : FakeInstant)
  | checkedAddOp (i : FakeInstant) (d : Duration)
  | checkedSubOp (i : FakeInstant) (d : Duration)
deriving Repr, DecidableEq

/-- Whether an operation is one of the two mutators of the counter. -/
def Op.isMutation : Op → Bool
  | .setTime _ => true
  | .advanceTime _ => true
  | _ => false

/-- The thread-local state left behind by running an operation on thread `t`.
The last six operations never access `FAKE_TIME` in the source (they are pure
functions of their arguments), so running them leaves the state of the lift
unchanged; `timeOp`, `nowOp` and `elapsedOp` thread the state through their
`with(|c| c.get())` read. -/
def Op.exec : Op → ThreadId → GState → GState
  | .setTime v, t, s => (set_time v t s).2
  | .advanceTime d, t, s => (advance_time d t s).2
  | .timeOp, t, s => (timeRS t s).2
  | .nowOp, t, s => (nowRS t s).2
  | .elapsedOp i, t, s => (elapsedRS i t s).2
  | .durationSinceOp a b, _, s => let _ := a.duration_since b; s
  | .satDurationSinceOp a b, _, s => let _ := a.saturating_duration_since b; s
  | .checkedDurationSinceOp a b, _, s => let _ := a.checked_duration_since b; s
  | .checkedAddOp i d, _, s => let _ := i.checked_add d; s
  | .checkedSubOp i d, _, s => let _ := i.checked_sub d; s

/-! ## Theorems -/

/-- C7: `set_time(v)` returns the prior counter value of the calling thread,
and a subsequent `time()` on that thread returns exactly `v`; `set_time` is a
total function on the full range, never failing. -/
theorem set_time_returns_prior_then_time_reads_it (v : Nat) (t : ThreadId) (s : GState) :
    (set_time v t s).1 = s t ∧ time t (set_time v t s).2 = v := by
  constructor
  · rfl
  · simp [set_time, time, timeRS]

/-- C2: after `set_time(v)`, `advance_time(d)` returns `(v + d) mod 2^64`
(unchecked `u64` addition wraps), and a subsequent `time()` on the same thread
returns that same wrapped value. -/
theorem advance_time_after_set_time_wraps (v d : Nat) (t : ThreadId) (s : GState) :
    (advance_time d t (set_time v t s).2).1 = (v + d) % U64SIZE
    ∧ time t (advance_time d t (set_time v t s).2).2 = (v + d) % U64SIZE := by
  constructor <;> simp [advance_time, set_time, time, timeRS]

/-- C5: `duration_since`, `saturating_duration_since` and the
instant-minus-instant operator all return `stored(a) − stored(b)` milliseconds
when `stored(b) ≤ stored(a)` and the zero duration otherwise. -/
theorem duration_since_variants_floor_at_zero (a b : FakeInstant) :
    a.duration_since b
      = (if b.time_created ≤ a.time_created
          then Duration.from_millis (a.time_created - b.time_created)
          else Duration.from_millis 0)
    ∧ a.saturating_duration_since b = a.duration_since b
    ∧ a.subInstant b = a.duration_since b := by
  refine ⟨?_, rfl, rfl⟩
  unfold FakeInstant.duration_since FakeInstant.checked_duration_since u64CheckedSub
  split <;> simp [Duration.defaultVal, Duration.from_millis]

/-- C6: `checked_duration_since` returns `none` exactly when `stored(a) <
stored(b)`, and otherwise `some` of the exact difference; in particular a
genuine zero gap yields `some` of the zero duration, distinguishable from
`none`. -/
theorem checked_duration_since_none_iff_lt (a b : FakeInstant) :
    (a.checked_duration_since b = none ↔ a.time_created < b.time_created)
    ∧ (b.time_created ≤ a.time_created →
        a.checked_duration_since b
          = some (Duration.from_millis (a.time_created - b.time_created)))
    ∧ a.checked_duration_since a = some (Duration.from_millis 0) := by
  unfold FakeInstant.checked_duration_since u64CheckedSub
  refine ⟨?_, ?_, by simp⟩
  · split <;> simp <;> omega
  · intro h
    simp [h]

/-- C6 witness: instantiated at stored counts 5 and 3. -/
theorem checked_duration_since_none_iff_lt_witness :
    FakeInstant.checked_duration_since ⟨5⟩ ⟨3⟩ = some (Duration.from_millis 2) := by
  exact (checked_duration_since_none_iff_lt ⟨5⟩ ⟨3⟩).2.1 (by decide)

/-- C8: two instants are equal (and `beq` agrees, and any hash of the stored
count coincides) exactly when their stored counts are equal; the derived order
is the numeric order of the stored counts and is total. -/
theorem instant_eq_ord_hash_structural (a b : FakeInstant) :
    (a.beq b = true ↔ a = b)
    ∧ (a = b ↔ a.time_created = b.time_created)
    ∧ (∀ h : Nat → Nat, a.time_created = b.time_created →
        a.hashWith h = b.hashWith h)
    ∧ (a.ble b = true ↔ a.time_created ≤ b.time_created)
    ∧ (a.ble b = true ∨ b.ble a = true) := by
  obtain ⟨x⟩ := a
  obtain ⟨y⟩ := b
  refine ⟨?_, ?_, ?_, ?_, ?_⟩
  · simp [FakeInstant.beq]
  · simp
  · intro h hxy
    simp only [] at hxy
    subst hxy
    rfl
  · simp [FakeInstant.ble]
  · simp [FakeInstant.ble]
    omega

/-- C8 witness: instantiated at equal stored counts 7 and 7. -/
theorem instant_eq_ord_hash_structural_witness :
    FakeInstant.hashWith (fun n => n * n) ⟨7⟩ = FakeInstant.hashWith (fun n => n * n) ⟨7⟩ := by
  exact (instant_eq_ord_hash_structural ⟨7⟩ ⟨7⟩).2.2.1 (fun n => n * n) rfl

/-- C1: evaluation at a failing input. With the thread counter set to 3 and an
instant stored at 5, `elapsed()` evaluates the unchecked `u64` subtraction
`3 - 5`, which wraps to `2^64 - 2` milliseconds — not the zero duration the
method's own documentation promises (in debug builds the same subtraction
panics instead). -/
theorem elapsed_underflow_wraps_not_zero :
    FakeInstant.elapsed ⟨5⟩ 0 (set_time 3 0 (set_time 5 0 initState).2).2
      = Duration.from_millis (U64SIZE - 2)
    ∧ Duration.from_millis (U64SIZE - 2) ≠ Duration.from_millis 0 := by
  constructor
  · show Duration.from_millis ((U64SIZE + 3 - 5) % U64SIZE) = Duration.from_millis (U64SIZE - 2)
    norm_num [U64SIZE]
  · intro h
    have := congrArg Duration.secs h
    norm_num [Duration.from_millis, U64SIZE] at this

/-- C4: the operator forms of instant-plus-duration and instant-minus-duration
return exactly the value of `checked_add`/`checked_sub` when those succeed, and
panic (modelled as an `error` result with the source's message) exactly when
those return `none`. -/
theorem operator_add_sub_agree_with_checked (i : FakeInstant) (d : Duration) :
    (∀ j, i.addDuration d = .ok j ↔ i.checked_add d = some j)
    ∧ (i.addDuration d = .error "overflow when adding duration to instant"
        ↔ i.checked_add d = none)
    ∧ (∀ j, i.subDuration d = .ok j ↔ i.checked_sub d = some j)
    ∧ (i.subDuration d = .error "overflow when subtracting duration from instant"
        ↔ i.checked_sub d = none) := by
  unfold FakeInstant.addDuration FakeInstant.subDuration
  cases h1 : i.checked_add d <;> cases h2 : i.checked_sub d <;> simp

/-- C10: none of the read-only operations (`time`, `now`, `elapsed`,
`duration_since`, `saturating_duration_since`, `checked_duration_since`,
`checked_add`, `checked_sub`) changes the thread-local counter state; only
`set_time` and `advance_time` are mutations. -/
theorem read_ops_preserve_state (op : Op) (t : ThreadId) (s : GState)
    (h : op.isMutation = false) : op.exec t s = s := by
  cases op <;> simp_all [Op.isMutation, Op.exec, timeRS, nowRS, elapsedRS]

/-- C10 witness: the `time()` read on thread 0 in the initial state. -/
theorem read_ops_preserve_state_witness :
    Op.isMutation .timeOp = false ∧ Op.exec .timeOp 0 initState = initState :=
  ⟨rfl, read_ops_preserve_state .timeOp 0 initState rfl⟩

/-- A valid `Duration` holds fewer than `2^64 * 1000` milliseconds, so the
`u128` addition inside `checked_add` can never overflow. -/
theorem Duration.as_millis_add_lt (d : Duration) (hd : d.valid) (tc : Nat)
    (htc : tc < U64SIZE) : d.as_millis + tc < U128SIZE := by
  obtain ⟨h1, h2⟩ := hd
  unfold Duration.as_millis U128SIZE U64SIZE at *
  have h3 : d.nanos / 1000000 ≤ 999 := by omega
  have h4 : d.secs * 1000 ≤ (2 ^ 64 - 1) * 1000 :=
    Nat.mul_le_mul_right 1000 (by omega)
  norm_num at h4 ⊢
  omega

/-- `checked_add` reduced to a single range test on the exact sum. -/
theorem checked_add_eq (i : FakeInstant) (d : Duration)
    (hi : i.time_created < U64SIZE) (hd : d.valid) :
    i.checked_add d
      = if U64SIZE ≤ i.time_created + d.as_millis then none
        else some ⟨i.time_created + d.as_millis⟩ := by
  have hm := Duration.as_millis_add_lt d hd i.time_created hi
  unfold FakeInstant.checked_add u128CheckedAdd u128ToU64
  rw [if_pos hm, Nat.add_comm d.as_millis i.time_created]
  simp only [Option.some_bind]
  split
  · rw [if_neg (by omega)]
    rfl
  · rw [if_pos (by omega)]
    rfl

/-- `checked_sub` reduced to a single comparison: the `u128 → u64` conversion
of the duration's milliseconds fails only when those already exceed any
possible stored count. -/
theorem checked_sub_eq (i : FakeInstant) (d : Duration)
    (hi : i.time_created < U64SIZE) :
    i.checked_sub d
      = if d.as_millis ≤ i.time_created then some ⟨i.time_created - d.as_millis⟩
        else none := by
  unfold FakeInstant.checked_sub u128ToU64 u64CheckedSub
  by_cases hfit : d.as_millis < U64SIZE
  · rw [if_pos hfit]
    simp only [Option.some_bind]
    split <;> rfl
  · have hgt : ¬ d.as_millis ≤ i.time_created := by omega
    rw [if_neg hfit, if_neg hgt]
    rfl

/-- C3: `checked_add` returns `none` exactly when `stored(i) + millis(d)`
exceeds `u64::MAX`, `checked_sub` returns `none` exactly when
`millis(d) > stored(i)`, and each otherwise returns the instant holding the
exact sum or difference. -/
theorem checked_add_checked_sub_boundary (i : FakeInstant) (d : Duration)
    (hi : i.time_created < U64SIZE) (hd : d.valid) :
    (i.checked_add d = none ↔ U64SIZE ≤ i.time_created + d.as_millis)
    ∧ (i.time_created + d.as_millis < U64SIZE →
        i.checked_add d = some ⟨i.time_created + d.as_millis⟩)
    ∧ (i.checked_sub d = none ↔ i.time_created < d.as_millis)
    ∧ (d.as_millis ≤ i.time_created →
        i.checked_sub d = some ⟨i.time_created - d.as_millis⟩) := by
  rw [checked_add_eq i d hi hd, checked_sub_eq i d hi]
  refine ⟨?_, ?_, ?_, ?_⟩
  · split <;> simp_all
  · intro h
    rw [if_neg (by omega)]
  · split <;> simp_all
  · intro h
    rw [if_pos h]

/-- C3 witness: the crate's own boundary test, an instant stored at 1 plus a
`u64::MAX`-millisecond duration, which overflows, and minus a 1 ms duration,
which succeeds. -/
theorem checked_add_checked_sub_boundary_witness :
    (1 : Nat) < U64SIZE ∧ (Duration.from_millis (U64SIZE - 1)).valid
    ∧ FakeInstant.checked_add ⟨1⟩ (Duration.from_millis (U64SIZE - 1)) = none := by
  have h1 : (1 : Nat) < U64SIZE := by norm_num [U64SIZE]
  have h2 : (Duration.from_millis (U64SIZE - 1)).valid := by
    constructor <;> norm_num [Duration.from_millis, U64SIZE]
  refine ⟨h1, h2, ?_⟩
  exact (checked_add_checked_sub_boundary ⟨1⟩ (Duration.from_millis (U64SIZE - 1)) h1 h2).1.mpr
    (by norm_num [Duration.as_millis, Duration.from_millis, U64SIZE])

/-- C9: every thread's counter starts at zero; `set_time`/`advance_time` on one
thread change nothing another thread observes through `time`, `now` or
`elapsed`; and `elapsed` depends only on the counter of the thread reading it
(an instant carried to another thread is measured against that thread's
counter). -/
theorem thread_counter_isolation :
    (∀ u : ThreadId, initState u = 0)
    ∧ (∀ (v : Nat) (t u : ThreadId) (s : GState), u ≠ t →
        time u (set_time v t s).2 = time u s
        ∧ time u (advance_time v t s).2 = time u s
        ∧ FakeInstant.now u (set_time v t s).2 = FakeInstant.now u s
        ∧ FakeInstant.now u (advance_time v t s).2 = FakeInstant.now u s
        ∧ ∀ i : FakeInstant,
            i.elapsed u (set_time v t s).2 = i.elapsed u s
            ∧ i.elapsed u (advance_time v t s).2 = i.elapsed u s)
    ∧ (∀ (i : FakeInstant) (t u : ThreadId) (s s2 : GState), s t = s2 u →
        i.elapsed t s = i.elapsed u s2) := by
  refine ⟨fun _ => rfl, ?_, ?_⟩
  · intro v t u s hu
    have hs : (set_time v t s).2 u = s u := by simp [set_time, hu]
    have ha : (advance_time v t s).2 u = s u := by simp [advance_time, hu]
    refine ⟨?_, ?_, ?_, ?_, fun i => ⟨?_, ?_⟩⟩ <;>
      simp [time, timeRS, FakeInstant.now, nowRS, FakeInstant.elapsed, elapsedRS, hs, ha]
  · intro i t u s s2 h
    simp [FakeInstant.elapsed, elapsedRS, timeRS, h]

/-- C9 witness: the crate's `test_threads` scenario — thread 0 sets its counter
to 200, thread 1 then sets its own counter to 500, and thread 0 still reads
200. -/
theorem thread_counter_isolation_witness :
    time 0 (set_time 500 1 (set_time 200 0 initState).2).2 = 200 := by
  have h := (thread_counter_isolation.2.1 500 1 0 ((set_time 200 0 initState).2)
    (by decide)).1
  rw [h]
  rfl

end FakeClock
